import Mathlib

/-!
Verification of the fivexl aws-cost-and-usage-report-generator repository
against its natural-language specification.

The Python sources are shallowly embedded: decimal amount strings are
modelled as exact rationals, Python dictionaries keyed by insertion order
as association lists, and fallible Python operations as values of
`Except PyErr`.  Rounding (`pandas.DataFrame.round`, Python `round`) is
modelled as decimal rounding on rationals; no claim below depends on the
tie-breaking of binary floating point at exact half-way points.
-/

namespace CostReport

/-- Python run-time errors raised by the embedded code paths. -/
inductive PyErr
  | typeError
  | keyError (key : String)
  | attributeError (attr : String)
  | valueError
  | indexError
  deriving DecidableEq

/-! ## Cost Explorer response model (aws-cost-and-usage-report.py) -/

/-- One group of a monthly result.  `key` embeds `group['Keys'][0]` and
`amount` embeds `float(group['Metrics']['UnblendedCost']['Amount'])` of
`ce_response_to_dataframe`; the decimal amount string is modelled as an
exact rational. -/
structure CEGroup where
  key : String
  amount : ℚ
  deriving DecidableEq

/-- One entry of `ResultsByTime`: `start` embeds `month['TimePeriod']['Start']`,
`groups` embeds `month['Groups']`. -/
structure CEMonth where
  start : String
  groups : List CEGroup
  deriving DecidableEq

/-- One page of a `get_cost_and_usage` billing-API response. -/
structure CEPage where
  resultsByTime : List CEMonth
  nextPageToken : Option String
  deriving DecidableEq

/-- Embeds line 28 of aws-cost-and-usage-report.py:
`params = ...NextPageToken...token... + kwargs`.  In Python, `dict + dict`
is unsupported and raises
`TypeError: unsupported operand type(s) for +: 'dict' and 'dict'`. -/
def dictPlusDict : Except PyErr Unit := Except.error PyErr.typeError

/-- The `while True` pagination loop of `get_cost_and_usage`
(aws-cost-and-usage-report.py lines 26-40), run against a modelled stream of
API pages.  Each iteration first builds `params` (raising via `dictPlusDict`
whenever a continuation token is present), then consumes the next page,
accumulates `data['ResultsByTime']` and reads `data.get('NextPageToken')`.
An exhausted page stream is modelled as `indexError`; it is unreachable for
any well-formed model in which the last page carries no token. -/
def getCostAndUsageLoop : List CEPage → List CEMonth → Option String → Except PyErr (List CEMonth)
  | _, _, some _ => Except.error PyErr.typeError
  | [], _, none => Except.error PyErr.indexError
  | page :: rest, results, none =>
      match page.nextPageToken with
      | none => Except.ok (results ++ page.resultsByTime)
      | some t => getCostAndUsageLoop rest (results ++ page.resultsByTime) (some t)

/-- Embeds `get_cost_and_usage` (aws-cost-and-usage-report.py lines 18-42):
`results = []`, `token = None`, then the pagination loop. -/
def get_cost_and_usage (pages : List CEPage) : Except PyErr (List CEMonth) :=
  getCostAndUsageLoop pages [] none

/-! ## The configuration module (config.py) and the import in reservations.py -/

/-- The attributes bound in the `config` module after it executes
(config.py lines 1-85): the two imported names and every assigned name. -/
def config_module_attributes : List String :=
  ["datetime", "relativedelta",
   "now", "first_day_this_month_raw", "first_day_prev_month_raw",
   "GET_SAVINGS_PLANS_INFO", "GET_RESERVED_INSTANCES_INFO",
   "MISSING_DATA_PLACEHOLDER",
   "FIRST_DAY_THIS_MONTH", "FIRST_DAY_PREV_MONTH",
   "SP_CONFIG", "RPR_CONFIG"]

/-- The names that reservations.py (lines 7-14) imports from the
configuration module. -/
def reservations_from_config_imports : List String :=
  ["FIRST_DAY_PREV_MONTH", "FIRST_DAY_THIS_MONTH",
   "GET_RESERVED_INSTANCES_INFO", "MISSING_DATA_PLACEHOLDER",
   "RPR_CONFIG", "LIST_OF_SERVICES_FOR_RESERVATIONS_COVERAGE"]

/-- A Python `from module import a, b, ...` statement succeeds exactly when
every imported name is an attribute of the module; otherwise it raises
`ImportError: cannot import name ...`. -/
def fromImportSucceeds (moduleAttrs imports : List String) : Bool :=
  imports.all (fun n => moduleAttrs.contains n)

/-! ## Reservations purchase recommendations (reservations.py lines 229-279) -/

/-- One entry of `RPR_CONFIG` (config.py lines 48-84). -/
structure RprConfigEntry where
  service : String
  lookbackPeriodInDays : String
  termInYears : String
  paymentOption : String
  accountScope : String
  deriving DecidableEq

/-- `RPR_CONFIG` from config.py lines 48-84. -/
def RPR_CONFIG : List RprConfigEntry :=
  [⟨"Amazon Elastic Compute Cloud - Compute", "THIRTY_DAYS", "ONE_YEAR", "NO_UPFRONT", "PAYER"⟩,
   ⟨"Amazon Relational Database Service", "THIRTY_DAYS", "ONE_YEAR", "NO_UPFRONT", "PAYER"⟩,
   ⟨"Amazon ElastiCache", "THIRTY_DAYS", "ONE_YEAR", "NO_UPFRONT", "PAYER"⟩,
   ⟨"Amazon Redshift", "THIRTY_DAYS", "ONE_YEAR", "NO_UPFRONT", "PAYER"⟩,
   ⟨"Amazon Elasticsearch Service", "THIRTY_DAYS", "ONE_YEAR", "NO_UPFRONT", "PAYER"⟩]

/-- `RecommendationSummary` of a reservation purchase recommendation;
`totalEstimatedMonthlySavingsAmount` models the decimal string parsed by
`float(...)` as an exact rational, absent keys as `none`. -/
structure RIRecSummary where
  currencyCode : Option String
  totalEstimatedMonthlySavingsAmount : Option ℚ
  deriving DecidableEq

/-- One element of the `Recommendations` list of a
`get_reservation_purchase_recommendation` response. -/
structure RIRecommendation where
  recommendationSummary : Option RIRecSummary
  lookbackPeriodInDays : String
  deriving DecidableEq

/-- Outcome of one billing-API call, as distinguished by the
`except` clauses of the fetchers: a successful response, a
`DataUnavailableException`, or any other exception. -/
inductive ApiCall (α : Type)
  | ok (response : α)
  | dataUnavailable
  | otherError
  deriving DecidableEq

/-- The record built by `reservations_purchase_recomendations_to_dict`. -/
structure RprRecord where
  estimatedMonthlySavings : ℚ
  currency : Option String
  lookbackPeriodInDays : String
  serviceReservation : String
  deriving DecidableEq

/-- Embeds `reservations_purchase_recomendations_to_dict`
(reservations.py lines 263-279).  Returns `none` when the recommendation has
no `RecommendationSummary` or the summary has no
`TotalEstimatedMonthlySavingsAmount`. -/
def reservations_purchase_recomendations_to_dict
    (recomendation : RIRecommendation) (rpr_input : RprConfigEntry) : Option RprRecord :=
  match recomendation.recommendationSummary with
  | none => none
  | some summary =>
      match summary.totalEstimatedMonthlySavingsAmount with
      | none => none
      | some savings =>
          some { estimatedMonthlySavings := savings,
                 currency := summary.currencyCode,
                 lookbackPeriodInDays := recomendation.lookbackPeriodInDays,
                 serviceReservation := rpr_input.service }

/-- One iteration of the `for rpr_input in RPR_CONFIG` loop of
`get_reservations_purchase_recommendations_info` (reservations.py
lines 236-258): entries whose API call reports data unavailable or fails
otherwise are skipped, as are entries with an empty `Recommendations` list
or a summary without an estimated-savings figure. -/
def rprLoopStep (api : RprConfigEntry → ApiCall (List RIRecommendation))
    (rprs : List RprRecord) (rpr_input : RprConfigEntry) : List RprRecord :=
  match api rpr_input with
  | ApiCall.dataUnavailable => rprs
  | ApiCall.otherError => rprs
  | ApiCall.ok rpr =>
      match rpr with
      | [] => rprs
      | r0 :: _ =>
          match reservations_purchase_recomendations_to_dict r0 rpr_input with
          | some d => rprs ++ [d]
          | none => rprs

/-- The attributes of a `logging.Logger` object that the sources invoke or
could invoke; `debur` is not among them. -/
def loggerAttrs : List String :=
  ["debug", "info", "warning", "error", "exception", "critical", "log", "setLevel"]

/-- Python attribute lookup on a `logging.Logger`: raises
`AttributeError` for a name that is not an attribute. -/
def loggerGetMethod (attr : String) : Except PyErr Unit :=
  if loggerAttrs.contains attr then Except.ok () else Except.error (PyErr.attributeError attr)

/-- Embeds `get_reservations_purchase_recommendations_info`
(reservations.py lines 229-260).  The function body first calls
`logger.info(...)` (line 232) and then `logger.debur(...)` (line 233)
before entering the loop over `RPR_CONFIG`; the unused `input` parameter of
the source is kept.  `api` models the per-entry outcome of
`client.get_reservation_purchase_recommendation(**rpr_input)["Recommendations"]`. -/
def get_reservations_purchase_recommendations_info
    (api : RprConfigEntry → ApiCall (List RIRecommendation))
    (input : List RprConfigEntry) : Except PyErr (List RprRecord) :=
  match loggerGetMethod "info" with
  | Except.error e => Except.error e
  | Except.ok _ =>
      match loggerGetMethod "debur" with
      | Except.error e => Except.error e
      | Except.ok _ => Except.ok (RPR_CONFIG.foldl (rprLoopStep api) [])

/-! ## CLI flags and the default cost filter
(aws-cost-and-usage-report.py lines 149-172) -/

/-- The value of an `argparse` flag declared with `action="store_true"` and
an explicit `default`: `True` when the flag is present on the command line,
the declared default otherwise. -/
def store_true_value (present dflt : Bool) : Bool :=
  if present then true else dflt

/-- The two exclusion flags of the argument parser
(aws-cost-and-usage-report.py lines 155-156), both declared
`action="store_true", default=True`. -/
structure ParsedFlags where
  exclude_credit : Bool
  exclude_refunds : Bool
  deriving DecidableEq

/-- Embeds the parsing of `--exclude_credit` and `--exclude_refunds`
from an argument vector. -/
def parse_args_flags (argv : List String) : ParsedFlags :=
  { exclude_credit := store_true_value (argv.contains "--exclude_credit") true,
    exclude_refunds := store_true_value (argv.contains "--exclude_refunds") true }

/-- A Cost Explorer filter expression, as the dictionaries built by the
orchestrator. -/
structure DimensionValues where
  key : String
  values : List String
  deriving DecidableEq

/-- Filter expression shape used at lines 168-172:
`And` of `Not` of `Dimensions` sub-filters. -/
inductive CEFilter
  | dims (d : DimensionValues)
  | notF (f : CEFilter)
  | andF (fs : List CEFilter)

/-- Embeds aws-cost-and-usage-report.py lines 168-172: start from
`filter = ...And...` and append the `Not RECORD_TYPE=Credit` and
`Not RECORD_TYPE=Refund` sub-filters when the respective flag is set. -/
def build_default_filter (exclude_credit exclude_refunds : Bool) : CEFilter :=
  CEFilter.andF
    ((if exclude_credit then [CEFilter.notF (CEFilter.dims ⟨"RECORD_TYPE", ["Credit"]⟩)] else [])
      ++ (if exclude_refunds then [CEFilter.notF (CEFilter.dims ⟨"RECORD_TYPE", ["Refund"]⟩)] else []))

/-! ## ce_response_to_dataframe (aws-cost-and-usage-report.py lines 59-124) -/

/-- First pass (lines 63-67): append a key to the running list when it has
not been seen yet. -/
def addKeyIfNew (acc : List String) (k : String) : List String :=
  if k ∈ acc then acc else acc ++ [k]

/-- Fold one month's groups into the running key list. -/
def monthKeysInto (acc : List String) (m : CEMonth) : List String :=
  m.groups.foldl (fun a g => addKeyIfNew a g.key) acc

/-- `all_keys`: all distinct dimension keys over all months, in first-seen
order (lines 60-67). -/
def collectAllKeys (input : List CEMonth) : List String :=
  input.foldl monthKeysInto []

/-- `all_keys_for_this_month` (lines 73-76): the keys of one month's groups
in group order. -/
def monthKeys (m : CEMonth) : List String :=
  m.groups.map (fun g => g.key)

/-- `column_names` (line 72): the start date of every month. -/
def columnNames (input : List CEMonth) : List String :=
  input.map (fun m => m.start)

/-- The `rows` dictionary of `ce_response_to_dataframe`: a Python dict in
insertion order, each value the list built by successive `append` calls. -/
abbrev RowsDict := List (String × List ℚ)

/-- Embeds lines 77-79 and 87-89: `if key_name not in rows: rows[key_name] = []`
followed by `rows[key_name].append(v)`. -/
def rowsAppend (rows : RowsDict) (k : String) (v : ℚ) : RowsDict :=
  if k ∈ rows.map Prod.fst then
    rows.map (fun p => if p.1 = k then (p.1, p.2 ++ [v]) else p)
  else rows ++ [(k, [v])]

/-- Embeds the body of the second `for month in input` loop (lines 71-89):
append the amount of every group of the month, then — unless this month's
key list equals `all_keys` — append `0.0` for every key of `all_keys` not
mentioned this month. -/
def processMonth (allKeys : List String) (rows : RowsDict) (m : CEMonth) : RowsDict :=
  let rows1 := m.groups.foldl (fun r g => rowsAppend r g.key g.amount) rows
  if monthKeys m = allKeys then rows1
  else allKeys.foldl (fun r k => if k ∈ monthKeys m then r else rowsAppend r k 0) rows1

/-- The `rows` dict after the second pass over all months. -/
def buildRows (input : List CEMonth) : RowsDict :=
  input.foldl (processMonth (collectAllKeys input)) []

/-- Models `df.fillna(value=0)` (line 92): a data row shorter than the
column count is padded with zeros. -/
def padTo (n : Nat) (l : List ℚ) : List ℚ :=
  l ++ List.replicate (n - l.length) 0

/-- One row of the cost table: index label and cell values per column. -/
abbrev CostRow := String × List ℚ

/-- Embeds line 91, `pandas.DataFrame(rows.values(), columns=column_names,
index=all_keys)`, followed by `fillna`: the index labels are paired
positionally with the data rows. -/
def initialRows (input : List CEMonth) : List CostRow :=
  List.zip (collectAllKeys input)
    ((buildRows input).map (fun p => padTo (columnNames input).length p.2))

/-- Decimal rounding to 2 places, modelling `df.round(2)` on rationals
(ties round half-up; no claim depends on tie-breaking). -/
def round2 (x : ℚ) : ℚ :=
  ((round (x * 100) : ℤ) : ℚ) / 100

/-- Line 93: `df = df.round(2)`. -/
def roundedRows (input : List CEMonth) : List CostRow :=
  (initialRows input).map (fun p => (p.1, p.2.map round2))

/-- Line 98: `df = df.loc[(df!=0).any(axis=1)]` — keep only rows with at
least one non-zero cell. -/
def droppedRows (input : List CEMonth) : List CostRow :=
  (roundedRows input).filter (fun p => p.2.any (fun v => decide (v ≠ 0)))

/-- Lines 101-103: per-column sums over the current rows. -/
def columnSums (rows : List CostRow) (ncols : Nat) : List ℚ :=
  (List.range ncols).map (fun j => (rows.map (fun p => p.2.getD j 0)).sum)

/-- Lines 100-105: append the `'Total Cost'` row (the column sums, computed
on the rows as they stand before sorting). -/
def totalRows (input : List CEMonth) : List CostRow :=
  droppedRows input
    ++ [("Total Cost", columnSums (droppedRows input) (columnNames input).length)]

/-- Lexicographic greater-or-equal on cell lists: the sort key of
`df.sort_values(df.columns.tolist(), ascending=False)` — every column
participates, most significant first. -/
def lexGE : List ℚ → List ℚ → Bool
  | _, [] => true
  | [], _ :: _ => false
  | a :: as, b :: bs => if b < a then true else if a < b then false else lexGE as bs

/-- Row ordering for the descending sort of line 108. -/
def rowGE (r s : CostRow) : Prop :=
  lexGE r.2 s.2 = true

instance : DecidableRel rowGE :=
  fun r s => inferInstanceAs (Decidable (lexGE r.2 s.2 = true))

/-- Line 108: sort the rows descending by all columns.  The model fixes a
stable sort; pandas does not specify tie order. -/
def sortedRows (input : List CEMonth) : List CostRow :=
  List.insertionSort rowGE (totalRows input)

/-- Splits a character list at `'-'`, accumulating the current chunk in
reverse. -/
def pySplitDashAux : List Char → List Char → List (List Char)
  | [], cur => [cur.reverse]
  | c :: cs, cur =>
      if c = '-' then cur.reverse :: pySplitDashAux cs [] else pySplitDashAux cs (c :: cur)

/-- Models `column.split('-')` for the date column labels. -/
def pySplitDash (s : String) : List String :=
  (pySplitDashAux s.toList []).map (fun cs => String.mk cs)

/-- Models `int(...)` on a decimal numeral string (total; `int` on a
malformed string raises in Python, which never happens for the
`YYYY-MM-DD` column labels). -/
def pyInt (s : String) : Nat :=
  s.toList.foldl (fun a c => a * 10 + (c.toNat - 48)) 0

/-- `int(column.split('-')[0])` (line 113). -/
def yearOf (column : String) : Nat :=
  pyInt ((pySplitDash column).getD 0 "")

/-- `int(column.split('-')[1])` (line 114). -/
def monthOf (column : String) : Nat :=
  pyInt ((pySplitDash column).getD 1 "")

/-- The Gregorian leap-year rule used by `calendar.monthrange`. -/
def isLeapYear (y : Nat) : Bool :=
  y % 4 = 0 && (y % 100 != 0 || y % 400 = 0)

/-- `calendar.monthrange(year, month)[1]`: the number of calendar days of
the month (total; `monthrange` raises on `month` outside 1..12, which never
happens for date-formatted column labels). -/
def monthrangeDays (y m : Nat) : Nat :=
  if m = 2 then (if isLeapYear y then 29 else 28)
  else if m = 4 ∨ m = 6 ∨ m = 9 ∨ m = 11 then 30
  else 31

/-- Lines 111-116: the normalized companion cells of one row — each raw
cell divided by the number of days of its column's month, rounded to two
decimals. -/
def normalizeRow (cols : List String) (vals : List ℚ) : List ℚ :=
  (List.zip cols vals).map
    (fun cv => round2 (cv.2 / (monthrangeDays (yearOf cv.1) (monthOf cv.1) : ℚ)))

/-- One row of the final frame: index label, raw monthly cells, normalized
cells. -/
structure FinalRow where
  label : String
  raw : List ℚ
  norm : List ℚ
  deriving DecidableEq

/-- The frame returned by `ce_response_to_dataframe`. -/
structure FinalDF where
  months : List String
  rows : List FinalRow
  deriving DecidableEq

/-- Embeds `ce_response_to_dataframe` (lines 59-124) end to end. -/
def ce_response_to_dataframe (input : List CEMonth) : FinalDF :=
  { months := columnNames input,
    rows := (sortedRows input).map
      (fun p => { label := p.1, raw := p.2, norm := normalizeRow (columnNames input) p.2 }) }

/-- The column labels of the final frame: the raw month columns, the
`'n '`-prefixed normalized columns appended after them (line 116), and the
`'---'` separator inserted at position 3 (line 120). -/
def FinalDF.columns (df : FinalDF) : List String :=
  List.insertIdx 3 "---" (df.months ++ df.months.map (fun c => "n " ++ c))

/-- The cells of one row in column order; the separator cell holds the
empty string, modelled as `none`. -/
def FinalRow.cells (r : FinalRow) : List (Option ℚ) :=
  List.insertIdx 3 none (r.raw.map some ++ r.norm.map some)

/-- `df[c]`: column extraction by label (first matching column, as for a
frame with unique column labels); `none` when the label is absent
(`KeyError` in pandas). -/
def FinalDF.getColumn (df : FinalDF) (c : String) : Option (List (Option ℚ)) :=
  (df.columns.findIdx? (fun s => decide (s = c))).map
    (fun j => df.rows.map (fun r => r.cells.getD j none))

/-! ## Top-five selection (aws-cost-and-usage-report.py lines 193-201) -/

/-- Elementwise subtraction of two extracted columns; subtracting a
non-numeric (separator) cell raises `TypeError`, as `-` on a string does. -/
def subtractCells : List (Option ℚ) → List (Option ℚ) → Except PyErr (List ℚ)
  | [], [] => Except.ok []
  | some a :: as, some b :: bs => (subtractCells as bs).map (fun t => (a - b) :: t)
  | _, _ => Except.error PyErr.typeError

/-- Python `list.remove`: removes the first occurrence, raises
`ValueError` when the element is absent (line 200). -/
def pyRemove (l : List String) (a : String) : Except PyErr (List String) :=
  if a ∈ l then Except.ok (l.erase a) else Except.error PyErr.valueError

/-- Descending order on the diff series of line 198. -/
def diffGE (p q : String × ℚ) : Prop :=
  q.2 ≤ p.2

instance : DecidableRel diffGE :=
  fun p q => inferInstanceAs (Decidable (q.2 ≤ p.2))

instance : IsTotal (String × ℚ) diffGE :=
  ⟨fun p q => le_total q.2 p.2⟩

instance : IsTrans (String × ℚ) diffGE :=
  ⟨fun _ _ _ h1 h2 => le_trans h2 h1⟩

/-- Embeds lines 193-201: take the last and the one-before-last column of
the frame, subtract them row-wise, sort the row labels descending by that
difference, remove `'Total Cost'` and keep the first five. -/
def top_five_services_by_max_diff (df : FinalDF) : Except PyErr (List String) :=
  match df.getColumn (df.columns.getD (df.columns.length - 1) "") with
  | none => Except.error (PyErr.keyError (df.columns.getD (df.columns.length - 1) ""))
  | some lastCol =>
    match df.getColumn (df.columns.getD (df.columns.length - 2) "") with
    | none => Except.error (PyErr.keyError (df.columns.getD (df.columns.length - 2) ""))
    | some prevCol =>
      match subtractCells lastCol prevCol with
      | Except.error e => Except.error e
      | Except.ok diffs =>
        match pyRemove
            ((List.insertionSort diffGE
              (List.zip (df.rows.map (fun r => r.label)) diffs)).map Prod.fst)
            "Total Cost" with
        | Except.error e => Except.error e
        | Except.ok labels => Except.ok (labels.take 5)

/-- The amount a month's groups report for a key, `0` when the key is
absent (the zero-fill value). -/
def amountIn (m : CEMonth) (k : String) : ℚ :=
  match m.groups.find? (fun g => decide (g.key = k)) with
  | some g => g.amount
  | none => 0

/-- The intended cell row of a dimension key: one amount per month, in
month order. -/
def rowSpec (input : List CEMonth) (k : String) : List ℚ :=
  input.map (fun m => amountIn m k)

/-- The cells a single month's group fold appends to the row of a key:
one amount when the key occurs in the month's groups, nothing otherwise. -/
def gAmt (gs : List CEGroup) (k : String) : List ℚ :=
  match gs.find? (fun g => decide (g.key = k)) with
  | some g => [g.amount]
  | none => []

/-- The month-over-month difference of the two most recent normalized
columns of the row carrying a given label (`0` when no row carries it). -/
def normDiffByLabel (df : FinalDF) (k : String) : ℚ :=
  match df.rows.find? (fun r => decide (r.label = k)) with
  | some r => r.norm.getD (df.months.length - 1) 0 - r.norm.getD (df.months.length - 2) 0
  | none => 0

/-! ## Savings-plans utilization shape semantics (savings_plans.py) -/

/-- The pandas frames of the reservations/savings-plans subsystems,
tracked at the level that decides their control flow: the column-label
list and the row count.  Column lookup on this model raises `KeyError`
exactly when pandas does. -/
structure PDF where
  columns : List String
  nrows : Nat
  deriving DecidableEq

/-- `df[c]` at shape level: `KeyError` when the column is absent. -/
def pdfGetCol (df : PDF) (c : String) : Except PyErr Unit :=
  if df.columns.contains c then Except.ok () else Except.error (PyErr.keyError c)

/-- `df[c] = ...`: adds the column when it is new. -/
def pdfSetCol (df : PDF) (c : String) : PDF :=
  if df.columns.contains c then df else { df with columns := df.columns ++ [c] }

/-- `df[[c1, ..., ck]]`: column selection; `KeyError` when any label is
absent. -/
def pdfSelect (df : PDF) (cs : List String) : Except PyErr PDF :=
  if cs.all (fun c => df.columns.contains c) then
    Except.ok { columns := cs, nrows := df.nrows }
  else Except.error (PyErr.keyError "columns not found")

/-- One element of `SavingsPlansUtilizationDetails`, with the fields read
by `utilization_details_to_df` (savings_plans.py lines 55-71). -/
structure SPDetail where
  savingsPlanArn : String
  utilizationPercentage : ℚ
  endDateTime : String
  accountName : String
  region : String
  netSavings : ℚ
  savingsPlansType : String
  deriving DecidableEq

/-- The `Total` aggregate of a savings-plans utilization response, with
the two fields read when building the synthetic total row. -/
structure SPTotal where
  utilizationPercentage : ℚ
  netSavings : ℚ
  deriving DecidableEq

/-- A successful `get_savings_plans_utilization_details` response. -/
structure SPUtilResponse where
  savingsPlansUtilizationDetails : List SPDetail
  total : SPTotal
  deriving DecidableEq

/-- Embeds `utilization_details_to_df` (savings_plans.py lines 55-71) at
shape level: `pd.DataFrame` over a list of per-plan dicts.  Over the empty
list the frame has no columns at all; otherwise its columns are the dict
keys in insertion order. -/
def utilization_details_to_df (sp_info : List SPDetail) : PDF :=
  if sp_info.isEmpty then { columns := [], nrows := 0 }
  else
    { columns := ["SavingsPlanArn", "Utilization", "EndDateTime",
                  "Account", "Region", "Savings", "Type"],
      nrows := sp_info.length }

/-- Embeds `format_savings_plans_utilizations` (savings_plans.py
lines 74-95) at shape level, in statement order: read `EndDateTime` and
assign `DaysUntilEnd`; read `SavingsPlanArn` and assign `Id`; append the
total row; rewrite `Utilization` and `Savings`; select the seven output
columns.  The function sits outside every `try` block, so each failing
column read propagates.  (The value-level transforms applied per cell are
not tracked; no control flow depends on them.) -/
def format_savings_plans_utilizations (raw : PDF) (total : SPTotal) : Except PyErr PDF := do
  let _ ← pdfGetCol raw "EndDateTime"
  let df := pdfSetCol raw "DaysUntilEnd"
  let _ ← pdfGetCol df "SavingsPlanArn"
  let df := pdfSetCol df "Id"
  let df : PDF := { df with nrows := df.nrows + 1 }
  let _ ← pdfGetCol df "Utilization"
  let df := pdfSetCol df "Utilization"
  let _ ← pdfGetCol df "Savings"
  let df := pdfSetCol df "Savings"
  let _ := total
  pdfSelect df ["Id", "Utilization", "Savings", "DaysUntilEnd", "Account", "Region", "Type"]

/-- Embeds `get_savings_plans_utilization_df` (savings_plans.py
lines 34-52): `none` models a caught-and-logged fetch failure
(`details is None`); a successful response is converted and formatted with
no further guard. -/
def get_savings_plans_utilization_df (details : Option SPUtilResponse) :
    Except PyErr (Option PDF) :=
  match details with
  | none => Except.ok none
  | some d => do
      let f ← format_savings_plans_utilizations
        (utilization_details_to_df d.savingsPlansUtilizationDetails) d.total
      return some f

/-! ## Reservations utilization empty-groups guard (reservations.py lines 106-128) -/

/-- One group of a reservation utilization response (fields read by
`reservations_utilization_to_df`, reservations.py lines 53-67). -/
structure RUGroup where
  reservationARN : String
  accountName : String
  instanceType : String
  region : String
  utilizationPercentage : ℚ
  netRISavings : ℚ
  endDateTime : String
  deriving DecidableEq

/-- The `Total` aggregate of a reservation utilization response. -/
structure RUTotal where
  utilizationPercentage : ℚ
  netRISavings : ℚ
  deriving DecidableEq

/-- One entry of `UtilizationsByTime`. -/
structure RUTimeEntry where
  groups : List RUGroup
  total : RUTotal
  deriving DecidableEq

/-- A successful `get_reservation_utilization` response. -/
structure RUResponse where
  utilizationsByTime : List RUTimeEntry
  deriving DecidableEq

/-- Embeds `reservations_utilization_to_df` (reservations.py lines 51-68)
at shape level: a seven-column frame, one row per group. -/
def reservations_utilization_to_df (groups : List RUGroup) : PDF :=
  if groups.isEmpty then { columns := [], nrows := 0 }
  else
    { columns := ["Id", "Account", "InstanceType", "Region",
                  "UtilizationPercentage", "Savings", "DaysUntilEnd"],
      nrows := groups.length }

/-- Embeds `format_reservations_utilization_df` (reservations.py
lines 71-103) at shape level. -/
def format_reservations_utilization_df (raw : PDF) (total : RUTotal) : Except PyErr PDF := do
  let _ ← pdfGetCol raw "DaysUntilEnd"
  let df := pdfSetCol raw "DaysUntilEnd"
  let _ ← pdfGetCol df "Id"
  let df := pdfSetCol df "Id"
  let _ ← pdfGetCol df "UtilizationPercentage"
  let df := pdfSetCol df "UtilizationPercentage"
  let df : PDF := { df with nrows := df.nrows + 1 }
  let _ ← pdfGetCol df "UtilizationPercentage"
  let df := pdfSetCol df "UtilizationPercentage"
  let _ ← pdfGetCol df "Savings"
  let df := pdfSetCol df "Savings"
  let _ := total
  pdfSelect df ["Id", "UtilizationPercentage", "Savings", "DaysUntilEnd",
                "Account", "Region", "InstanceType"]

/-- Embeds `get_reservations_utilization_df` (reservations.py
lines 106-128): unlike its savings-plans counterpart it guards on
`UtilizationsByTime[0].Groups == []` and returns `None` for an empty group
list before any frame is built. -/
def get_reservations_utilization_df (resp : Option RUResponse) : Except PyErr (Option PDF) :=
  match resp with
  | none => Except.ok none
  | some r =>
      match r.utilizationsByTime.head? with
      | none => Except.error PyErr.indexError
      | some e0 =>
          if e0.groups.isEmpty then Except.ok none
          else do
            let f ← format_reservations_utilization_df
              (reservations_utilization_to_df e0.groups) e0.total
            return some f

/-! ## The workbook-writing orchestrator (spec §4.6) -/

/-- One block written top-to-bottom into the single worksheet. -/
inductive WorksheetBlock
  | primaryTable (df : FinalDF)
  | perAccountTable (df : FinalDF)
  | usageTypeTable (service : String) (df : FinalDF)
  | subsystemTable (title : String) (frame : PDF)

/-- Modelled from the spec: the entry point that drives the reservations
and savings-plans subsystems and lays their sections out in the workbook
(spec §4.6 steps 6 and 8) is not among the provided source files — only the
subsystem builders it calls are (src's aws-cost-and-usage-report.py writes
the cost tables only).  Following the spec's words, the worksheet holds, in
order: the primary cost table, the per-account table, one labeled sub-table
per top-changing service, and — if produced — the reservations and
savings-plans sections appended as further labeled sub-tables before the
workbook is saved. -/
def write_report_workbook (primary perAccount : FinalDF)
    (topFive : List (String × FinalDF))
    (reservationsSections savingsPlansSections : Option (List (String × PDF))) :
    List WorksheetBlock :=
  [WorksheetBlock.primaryTable primary, WorksheetBlock.perAccountTable perAccount]
    ++ topFive.map (fun p => WorksheetBlock.usageTypeTable p.1 p.2)
    ++ (match reservationsSections with
        | some secs => secs.map (fun p => WorksheetBlock.subsystemTable p.1 p.2)
        | none => [])
    ++ (match savingsPlansSections with
        | some secs => secs.map (fun p => WorksheetBlock.subsystemTable p.1 p.2)
        | none => [])

/-- A concrete 3-month response in the shape of the spec's end-to-end
scenario: `EC2` every month, `S3` absent from the middle month, over a
leap February, March and April of 2024. -/
def exampleInput : List CEMonth :=
  [⟨"2024-02-01", [⟨"EC2", 100⟩, ⟨"S3", 10⟩]⟩,
   ⟨"2024-03-01", [⟨"EC2", 150⟩]⟩,
   ⟨"2024-04-01", [⟨"EC2", 200⟩, ⟨"S3", 20⟩]⟩]

end CostReport

namespace CostReport

/-! ## Helper lemmas: the first pass over keys -/

theorem mem_addKeyIfNew {acc : List String} {k x : String} :
    x ∈ addKeyIfNew acc k ↔ x ∈ acc ∨ x = k := by
  by_cases h : k ∈ acc
  · simp only [addKeyIfNew, if_pos h]
    exact ⟨Or.inl, fun hh => hh.elim id (fun e => by rw [e]; exact h)⟩
  · simp [addKeyIfNew, if_neg h]

theorem nodup_addKeyIfNew {acc : List String} {k : String} (h : acc.Nodup) :
    (addKeyIfNew acc k).Nodup := by
  by_cases hk : k ∈ acc
  · simpa [addKeyIfNew, hk] using h
  · simp [addKeyIfNew, hk, List.nodup_append, h]

theorem foldl_addKey_eq (gs : List CEGroup) (acc : List String) :
    gs.foldl (fun a g => addKeyIfNew a g.key) acc
      = (gs.map (fun g => g.key)).foldl addKeyIfNew acc := by
  induction gs generalizing acc with
  | nil => rfl
  | cons g tl ih => simp [ih]

theorem foldl_addKeyIfNew_append (ks : List String) (acc : List String) :
    ∃ ext, ks.foldl addKeyIfNew acc = acc ++ ext ∧ ∀ x ∈ ext, x ∉ acc := by
  induction ks generalizing acc with
  | nil => exact ⟨[], by simp⟩
  | cons k tl ih =>
    by_cases hk : k ∈ acc
    · obtain ⟨ext, he, hf⟩ := ih acc
      exact ⟨ext, by simpa [addKeyIfNew, hk] using he, hf⟩
    · obtain ⟨ext, he, hf⟩ := ih (acc ++ [k])
      refine ⟨k :: ext, ?_, ?_⟩
      · simpa [addKeyIfNew, hk] using he
      · intro x hx
        rcases List.mem_cons.mp hx with rfl | hx'
        · exact hk
        · intro hxa
          exact hf x hx' (List.mem_append_left _ hxa)

theorem mem_foldl_addKeyIfNew (ks : List String) (acc : List String) (x : String) :
    x ∈ ks.foldl addKeyIfNew acc ↔ x ∈ acc ∨ x ∈ ks := by
  induction ks generalizing acc with
  | nil => simp
  | cons k tl ih =>
    simp only [List.foldl_cons, ih, mem_addKeyIfNew, List.mem_cons]
    tauto

theorem nodup_foldl_addKeyIfNew (ks : List String) (acc : List String) (h : acc.Nodup) :
    (ks.foldl addKeyIfNew acc).Nodup := by
  induction ks generalizing acc with
  | nil => exact h
  | cons k tl ih => exact ih _ (nodup_addKeyIfNew h)

theorem foldl_addKeyIfNew_of_fresh (ks : List String) (acc : List String)
    (hnd : ks.Nodup) (hf : ∀ x ∈ ks, x ∉ acc) :
    ks.foldl addKeyIfNew acc = acc ++ ks := by
  induction ks generalizing acc with
  | nil => simp
  | cons k tl ih =>
    have hk : k ∉ acc := hf k (by simp)
    have step : addKeyIfNew acc k = acc ++ [k] := by simp [addKeyIfNew, hk]
    rw [List.foldl_cons, step, ih (acc ++ [k]) (List.nodup_cons.mp hnd).2]
    · simp
    · intro x hx
      simp only [List.mem_append, List.mem_singleton]
      rintro (hxa | rfl)
      · exact hf x (List.mem_cons_of_mem _ hx) hxa
      · exact (List.nodup_cons.mp hnd).1 hx

theorem monthKeysInto_eq (acc : List String) (m : CEMonth) :
    monthKeysInto acc m = (monthKeys m).foldl addKeyIfNew acc :=
  foldl_addKey_eq m.groups acc

theorem monthKeysInto_append (acc : List String) (m : CEMonth) :
    ∃ ext, monthKeysInto acc m = acc ++ ext ∧ ∀ x ∈ ext, x ∉ acc := by
  rw [monthKeysInto_eq]
  exact foldl_addKeyIfNew_append _ _

theorem monthsFoldl_append (ms : List CEMonth) (acc : List String) :
    ∃ ext, ms.foldl monthKeysInto acc = acc ++ ext ∧ ∀ x ∈ ext, x ∉ acc := by
  induction ms generalizing acc with
  | nil => exact ⟨[], by simp⟩
  | cons m tl ih =>
    obtain ⟨e0, he0, hf0⟩ := monthKeysInto_append acc m
    obtain ⟨ext, he, hf⟩ := ih (monthKeysInto acc m)
    refine ⟨e0 ++ ext, ?_, ?_⟩
    · rw [List.foldl_cons, he, he0, List.append_assoc]
    · intro x hx
      rcases List.mem_append.mp hx with hx0 | hx'
      · exact hf0 x hx0
      · intro hxa
        exact hf x hx' (he0 ▸ List.mem_append_left _ hxa)

theorem mem_monthsFoldl (ms : List CEMonth) (acc : List String) (x : String) :
    x ∈ ms.foldl monthKeysInto acc ↔ x ∈ acc ∨ ∃ m ∈ ms, x ∈ monthKeys m := by
  induction ms generalizing acc with
  | nil => simp
  | cons m tl ih =>
    simp only [List.foldl_cons, ih, monthKeysInto_eq, mem_foldl_addKeyIfNew, List.mem_cons]
    constructor
    · rintro ((h | h) | ⟨m', hm', h⟩)
      · exact Or.inl h
      · exact Or.inr ⟨m, Or.inl rfl, h⟩
      · exact Or.inr ⟨m', Or.inr hm', h⟩
    · rintro (h | ⟨m', (rfl | hm'), h⟩)
      · exact Or.inl (Or.inl h)
      · exact Or.inl (Or.inr h)
      · exact Or.inr ⟨m', hm', h⟩

theorem collectAllKeys_nodup (input : List CEMonth) : (collectAllKeys input).Nodup := by
  have h : ∀ (ms : List CEMonth) (acc : List String), acc.Nodup →
      (ms.foldl monthKeysInto acc).Nodup := by
    intro ms
    induction ms with
    | nil => exact fun acc h => h
    | cons m tl ih =>
      intro acc hacc
      simp only [List.foldl_cons]
      exact ih _ (by rw [monthKeysInto_eq]; exact nodup_foldl_addKeyIfNew _ _ hacc)
  exact h input [] List.nodup_nil

theorem mem_collectAllKeys (input : List CEMonth) (x : String) :
    x ∈ collectAllKeys input ↔ ∃ m ∈ input, x ∈ monthKeys m := by
  simpa using mem_monthsFoldl input [] x

theorem subset_collectAllKeys {input : List CEMonth} {m : CEMonth} (hm : m ∈ input)
    {k : String} (hk : k ∈ monthKeys m) : k ∈ collectAllKeys input :=
  (mem_collectAllKeys input k).mpr ⟨m, hm, hk⟩

theorem collectAllKeys_cons (m : CEMonth) (rest : List CEMonth) :
    ∃ ext, collectAllKeys (m :: rest) = monthKeysInto [] m ++ ext
      ∧ ∀ x ∈ ext, x ∉ monthKeysInto [] m := by
  have h := monthsFoldl_append rest (monthKeysInto [] m)
  simpa [collectAllKeys] using h

theorem monthKeysInto_nil_of_nodup {m : CEMonth} (hnd : (monthKeys m).Nodup) :
    monthKeysInto [] m = monthKeys m := by
  rw [monthKeysInto_eq]
  simpa using foldl_addKeyIfNew_of_fresh (monthKeys m) [] hnd (by simp)

end CostReport

namespace CostReport

/-! ## Helper lemmas: the rows dictionary -/

theorem rowsAppend_mapped (keys : List String) (f : String → List ℚ) (a : String) (v : ℚ)
    (ha : a ∈ keys) :
    rowsAppend (keys.map (fun k => (k, f k))) a v
      = keys.map (fun k => (k, if k = a then f k ++ [v] else f k)) := by
  have hmem : a ∈ (keys.map (fun k => (k, f k))).map Prod.fst := by
    simpa [List.map_map] using ha
  rw [rowsAppend, if_pos hmem, List.map_map]
  apply List.map_congr_left
  intro k _
  by_cases hk : k = a <;> simp [Function.comp, hk]

theorem rowsAppend_fresh (rows : RowsDict) (a : String) (v : ℚ)
    (ha : a ∉ rows.map Prod.fst) :
    rowsAppend rows a v = rows ++ [(a, [v])] := by
  rw [rowsAppend, if_neg ha]

theorem find?_map_self {α : Type} (l : List α) (f : α → String) (x : α)
    (hnd : (l.map f).Nodup) (hx : x ∈ l) :
    l.find? (fun y => decide (f y = f x)) = some x := by
  induction l with
  | nil => cases hx
  | cons a tl ih =>
    rcases List.mem_cons.mp hx with rfl | hx'
    · simp [List.find?_cons_of_pos]
    · have hne : f a ≠ f x := by
        intro he
        exact (List.nodup_cons.mp (by simpa using hnd)).1
          (he ▸ List.mem_map_of_mem f hx')
      rw [List.find?_cons_of_neg _ (by simp [hne])]
      exact ih (List.nodup_cons.mp (by simpa using hnd)).2 hx'

theorem find?_key_none {α : Type} (l : List α) (f : α → String) (c : String)
    (hc : c ∉ l.map f) :
    l.find? (fun y => decide (f y = c)) = none := by
  rw [List.find?_eq_none]
  intro x hx
  simp only [decide_eq_true_eq]
  intro he
  exact hc (he ▸ List.mem_map_of_mem f hx)

theorem amountIn_eq_of_mem (m : CEMonth) (g : CEGroup)
    (hnd : (monthKeys m).Nodup) (hg : g ∈ m.groups) :
    amountIn m g.key = g.amount := by
  unfold amountIn
  rw [find?_map_self m.groups (fun g => g.key) g hnd hg]

theorem amountIn_eq_zero {m : CEMonth} {k : String} (hk : k ∉ monthKeys m) :
    amountIn m k = 0 := by
  unfold amountIn
  rw [find?_key_none m.groups (fun g => g.key) k hk]

theorem gAmt_of_mem {m : CEMonth} {k : String} (hk : k ∈ monthKeys m) :
    gAmt m.groups k = [amountIn m k] := by
  unfold gAmt amountIn
  rcases hfind : m.groups.find? (fun g => decide (g.key = k)) with _ | g
  · exfalso
    rw [List.find?_eq_none] at hfind
    obtain ⟨g, hg, hgk⟩ := List.mem_map.mp hk
    exact hfind g hg (by simp [hgk])
  · simp [hfind]

theorem gAmt_of_not_mem {gs : List CEGroup} {k : String}
    (hk : k ∉ gs.map (fun g => g.key)) :
    gAmt gs k = [] := by
  unfold gAmt
  rw [find?_key_none gs (fun g => g.key) k hk]

theorem foldl_rowsAppend_groups (gs : List CEGroup) (keys : List String)
    (f : String → List ℚ)
    (hnd : (gs.map (fun g => g.key)).Nodup) (hsub : ∀ g ∈ gs, g.key ∈ keys) :
    gs.foldl (fun r g => rowsAppend r g.key g.amount) (keys.map (fun k => (k, f k)))
      = keys.map (fun k => (k, f k ++ gAmt gs k)) := by
  induction gs generalizing f with
  | nil =>
    simp only [List.foldl_nil]
    apply List.map_congr_left
    intro k _
    simp [gAmt]
  | cons g tl ih =>
    rw [List.map_cons] at hnd
    have hhead := (List.nodup_cons.mp hnd).1
    have htail := (List.nodup_cons.mp hnd).2
    rw [List.foldl_cons, rowsAppend_mapped keys f g.key g.amount (hsub g (by simp)),
      ih (fun k => if k = g.key then f k ++ [g.amount] else f k) htail
        (fun x hx => hsub x (List.mem_cons_of_mem _ hx))]
    apply List.map_congr_left
    intro k _
    by_cases hk : k = g.key
    · have hnotl : k ∉ tl.map (fun g => g.key) := by rw [hk]; exact hhead
      have h2 : gAmt (g :: tl) k = [g.amount] := by
        unfold gAmt
        rw [List.find?_cons_of_pos _ (by simp [hk])]
      rw [if_pos hk, gAmt_of_not_mem hnotl, h2]
      simp
    · have h2 : gAmt (g :: tl) k = gAmt tl k := by
        unfold gAmt
        rw [List.find?_cons_of_neg _
          (by simp only [decide_eq_true_eq]; exact fun h => hk h.symm)]
      rw [if_neg hk, h2]

theorem foldl_fill_mapped (iter : List String) (keys : List String) (mk : List String)
    (f : String → List ℚ)
    (hnd : iter.Nodup) (hsub : ∀ k ∈ iter, k ∈ keys) :
    iter.foldl (fun r k => if k ∈ mk then r else rowsAppend r k 0)
        (keys.map (fun k => (k, f k)))
      = keys.map (fun k => (k, if k ∈ iter ∧ k ∉ mk then f k ++ [0] else f k)) := by
  induction iter generalizing f with
  | nil =>
    simp only [List.foldl_nil]
    apply List.map_congr_left
    intro k _
    simp
  | cons a tl ih =>
    by_cases ha : a ∈ mk
    · rw [List.foldl_cons, if_pos ha,
        ih f (List.nodup_cons.mp hnd).2 (fun x hx => hsub x (List.mem_cons_of_mem _ hx))]
      apply List.map_congr_left
      intro k _
      by_cases hk : k = a
      · subst hk
        simp [ha]
      · simp [List.mem_cons, hk]
    · rw [List.foldl_cons, if_neg ha, rowsAppend_mapped keys f a 0 (hsub a (by simp)),
        ih (fun k => if k = a then f k ++ [0] else f k)
          (List.nodup_cons.mp hnd).2 (fun x hx => hsub x (List.mem_cons_of_mem _ hx))]
      apply List.map_congr_left
      intro k _
      by_cases hk : k = a
      · subst hk
        have hknotl : k ∉ tl := (List.nodup_cons.mp hnd).1
        simp [hknotl, ha]
      · simp [List.mem_cons, hk]

theorem processMonth_mapped (keys : List String) (f : String → List ℚ) (m : CEMonth)
    (hndm : (monthKeys m).Nodup) (hsubm : ∀ k ∈ monthKeys m, k ∈ keys)
    (hndk : keys.Nodup) :
    processMonth keys (keys.map (fun k => (k, f k))) m
      = keys.map (fun k => (k, f k ++ [amountIn m k])) := by
  have hsubg : ∀ g ∈ m.groups, g.key ∈ keys := by
    intro g hg
    exact hsubm g.key (List.mem_map_of_mem _ hg)
  unfold processMonth
  rw [foldl_rowsAppend_groups m.groups keys f hndm hsubg]
  by_cases heq : monthKeys m = keys
  · rw [if_pos heq]
    apply List.map_congr_left
    intro k hk
    rw [gAmt_of_mem (heq ▸ hk)]
  · rw [if_neg heq,
      foldl_fill_mapped keys keys (monthKeys m) (fun k => f k ++ gAmt m.groups k)
        hndk (fun x hx => hx)]
    apply List.map_congr_left
    intro k hk
    by_cases hmem : k ∈ monthKeys m
    · rw [if_neg (by simp [hmem]), gAmt_of_mem hmem]
    · rw [if_pos ⟨hk, hmem⟩, gAmt_of_not_mem hmem, amountIn_eq_zero hmem]
      simp

theorem foldl_rowsAppend_fresh (gs : List CEGroup) (s : RowsDict)
    (hnd : (gs.map (fun g => g.key)).Nodup)
    (hf : ∀ g ∈ gs, g.key ∉ s.map Prod.fst) :
    gs.foldl (fun r g => rowsAppend r g.key g.amount) s
      = s ++ gs.map (fun g => (g.key, [g.amount])) := by
  induction gs generalizing s with
  | nil => simp
  | cons g tl ih =>
    rw [List.map_cons] at hnd
    have hhead := (List.nodup_cons.mp hnd).1
    have htail := (List.nodup_cons.mp hnd).2
    have hfresh : ∀ x ∈ tl, x.key ∉ (s ++ [(g.key, [g.amount])]).map Prod.fst := by
      intro x hx
      simp only [List.map_append, List.mem_append, List.map_cons, List.map_nil,
        List.mem_singleton, not_or]
      refine ⟨hf x (List.mem_cons_of_mem _ hx), ?_⟩
      intro he
      exact hhead (by rw [← he]; exact List.mem_map_of_mem _ hx)
    rw [List.foldl_cons, rowsAppend_fresh s g.key g.amount (hf g (by simp)),
      ih (s ++ [(g.key, [g.amount])]) htail hfresh]
    simp

theorem foldl_fill_fresh (iter : List String) (s : RowsDict) (mk : List String)
    (hnd : iter.Nodup)
    (hf : ∀ k ∈ iter, k ∉ mk → k ∉ s.map Prod.fst) :
    iter.foldl (fun r k => if k ∈ mk then r else rowsAppend r k 0) s
      = s ++ (iter.filter (fun k => decide (k ∉ mk))).map (fun k => (k, [(0:ℚ)])) := by
  induction iter generalizing s with
  | nil => simp
  | cons a tl ih =>
    by_cases ha : a ∈ mk
    · rw [List.foldl_cons, if_pos ha,
        ih s (List.nodup_cons.mp hnd).2 (fun x hx => hf x (List.mem_cons_of_mem _ hx))]
      simp [List.filter_cons, ha]
    · rw [List.foldl_cons, if_neg ha, rowsAppend_fresh s a 0 (hf a (by simp) ha),
        ih (s ++ [(a, [(0:ℚ)])]) (List.nodup_cons.mp hnd).2]
      · simp [List.filter_cons, ha]
      · intro x hx hxmk
        simp only [List.map_append, List.mem_append, List.map_cons, List.map_nil,
          List.mem_singleton, not_or]
        refine ⟨hf x (List.mem_cons_of_mem _ hx) hxmk, ?_⟩
        intro he
        exact (List.nodup_cons.mp hnd).1 (he ▸ hx)

theorem processMonth_nil (m : CEMonth) (rest : List CEMonth)
    (hndm : (monthKeys m).Nodup) :
    processMonth (collectAllKeys (m :: rest)) [] m
      = (collectAllKeys (m :: rest)).map (fun k => (k, [amountIn m k])) := by
  obtain ⟨ext, hkeys, hext⟩ := collectAllKeys_cons m rest
  rw [monthKeysInto_nil_of_nodup hndm] at hkeys hext
  have hpairs : m.groups.map (fun g => (g.key, [g.amount]))
      = (monthKeys m).map (fun k => (k, [amountIn m k])) := by
    unfold monthKeys
    rw [List.map_map]
    apply List.map_congr_left
    intro g hg
    simp [Function.comp, amountIn_eq_of_mem m g hndm hg]
  unfold processMonth
  rw [foldl_rowsAppend_fresh m.groups [] hndm (by simp)]
  simp only [List.nil_append]
  by_cases heq : monthKeys m = collectAllKeys (m :: rest)
  · rw [if_pos heq, hpairs, heq]
  · rw [if_neg heq,
      foldl_fill_fresh (collectAllKeys (m :: rest))
        (m.groups.map (fun g => (g.key, [g.amount]))) (monthKeys m)
        (collectAllKeys_nodup (m :: rest))
        (by
          intro k _ hkmk hmem
          apply hkmk
          obtain ⟨a, ha, hak⟩ : ∃ a ∈ m.groups, a.key = k := by
            simpa [Function.comp] using hmem
          unfold monthKeys
          rw [← hak]
          exact List.mem_map_of_mem _ ha)]
    rw [hkeys, List.filter_append]
    have h1 : (monthKeys m).filter (fun k => decide (k ∉ monthKeys m)) = [] := by
      simp [List.filter_eq_nil_iff]
    have h2 : ext.filter (fun k => decide (k ∉ monthKeys m)) = ext := by
      rw [List.filter_eq_self]
      intro a ha
      simpa using hext a ha
    rw [h1, h2, List.nil_append, List.map_append, hpairs]
    congr 1
    apply List.map_congr_left
    intro k hk
    rw [amountIn_eq_zero (hext k hk)]

theorem foldl_processMonth_mapped (rest : List CEMonth) (keys : List String)
    (f : String → List ℚ)
    (hndk : keys.Nodup) (hnds : ∀ m ∈ rest, (monthKeys m).Nodup)
    (hsubs : ∀ m ∈ rest, ∀ k ∈ monthKeys m, k ∈ keys) :
    rest.foldl (processMonth keys) (keys.map (fun k => (k, f k)))
      = keys.map (fun k => (k, f k ++ rest.map (fun m => amountIn m k))) := by
  induction rest generalizing f with
  | nil =>
    simp only [List.foldl_nil, List.map_nil]
    apply List.map_congr_left
    intro k _
    simp
  | cons m tl ih =>
    rw [List.foldl_cons,
      processMonth_mapped keys f m (hnds m (by simp)) (hsubs m (by simp)) hndk,
      ih (fun k => f k ++ [amountIn m k])
        (fun m' hm' => hnds m' (List.mem_cons_of_mem _ hm'))
        (fun m' hm' => hsubs m' (List.mem_cons_of_mem _ hm'))]
    apply List.map_congr_left
    intro k _
    simp

theorem buildRows_eq (input : List CEMonth)
    (hnds : ∀ m ∈ input, (monthKeys m).Nodup) :
    buildRows input = (collectAllKeys input).map (fun k => (k, rowSpec input k)) := by
  cases input with
  | nil => rfl
  | cons m rest =>
    unfold buildRows
    rw [List.foldl_cons, processMonth_nil m rest (hnds m (by simp)),
      foldl_processMonth_mapped rest (collectAllKeys (m :: rest))
        (fun k => [amountIn m k])
        (collectAllKeys_nodup (m :: rest))
        (fun m' hm' => hnds m' (List.mem_cons_of_mem _ hm'))
        (fun m' hm' k hk => subset_collectAllKeys (List.mem_cons_of_mem _ hm') hk)]
    apply List.map_congr_left
    intro k _
    simp [rowSpec]

end CostReport

namespace CostReport

/-! ## Helper lemmas: the data frame pipeline -/

theorem padTo_eq_self {n : Nat} {l : List ℚ} (h : l.length = n) : padTo n l = l := by
  simp [padTo, h]

theorem columnNames_length (input : List CEMonth) :
    (columnNames input).length = input.length := by
  simp [columnNames]

theorem rowSpec_length (input : List CEMonth) (k : String) :
    (rowSpec input k).length = input.length := by
  simp [rowSpec]

theorem zip_self_map {α β : Type} (l : List α) (f : α → β) :
    l.zip (l.map f) = l.map (fun a => (a, f a)) := by
  induction l with
  | nil => rfl
  | cons a tl ih => simp [ih]

theorem initialRows_eq (input : List CEMonth)
    (hnds : ∀ m ∈ input, (monthKeys m).Nodup) :
    initialRows input = (collectAllKeys input).map (fun k => (k, rowSpec input k)) := by
  unfold initialRows
  rw [buildRows_eq input hnds, List.map_map]
  have h1 : ((fun p : String × List ℚ => padTo (columnNames input).length p.2) ∘
      (fun k => (k, rowSpec input k))) = fun k => rowSpec input k := by
    funext k
    exact padTo_eq_self (by rw [rowSpec_length, columnNames_length])
  rw [h1, zip_self_map]

theorem roundedRows_eq (input : List CEMonth)
    (hnds : ∀ m ∈ input, (monthKeys m).Nodup) :
    roundedRows input
      = (collectAllKeys input).map (fun k => (k, (rowSpec input k).map round2)) := by
  unfold roundedRows
  rw [initialRows_eq input hnds, List.map_map]
  rfl

theorem label_mem_keys_of_dropped {input : List CEMonth} {r : CostRow}
    (hr : r ∈ droppedRows input) : r.1 ∈ collectAllKeys input := by
  have hr2 : r ∈ roundedRows input := (List.mem_filter.mp hr).1
  obtain ⟨p, hp, hpe⟩ := List.mem_map.mp hr2
  rcases p with ⟨a, b⟩
  unfold initialRows at hp
  have ha : a ∈ collectAllKeys input := (List.of_mem_zip hp).1
  rw [← hpe]
  exact ha

theorem length_of_mem_totalRows {input : List CEMonth}
    (hnds : ∀ m ∈ input, (monthKeys m).Nodup)
    {r : CostRow} (hr : r ∈ totalRows input) :
    r.2.length = (columnNames input).length := by
  rcases List.mem_append.mp hr with hd | ht
  · have hr2 : r ∈ roundedRows input := (List.mem_filter.mp hd).1
    rw [roundedRows_eq input hnds] at hr2
    obtain ⟨k, hk, hke⟩ := List.mem_map.mp hr2
    rw [← hke]
    simp [rowSpec_length, columnNames_length]
  · rw [List.mem_singleton.mp ht]
    simp [columnSums]

theorem round2_zero : round2 0 = 0 := by
  unfold round2
  norm_num

theorem columnSums_getD (rows : List CostRow) (n j : Nat) (hj : j < n) :
    (columnSums rows n).getD j 0 = (rows.map (fun p => p.2.getD j 0)).sum := by
  simp [columnSums, List.getD_eq_getElem?_getD, List.getElem?_range, hj]

theorem sortedRows_perm (input : List CEMonth) :
    (sortedRows input).Perm (totalRows input) :=
  List.perm_insertionSort _ _

theorem finalRows_perm (input : List CEMonth) :
    ((ce_response_to_dataframe input).rows).Perm
      ((totalRows input).map
        (fun p => ⟨p.1, p.2, normalizeRow (columnNames input) p.2⟩)) :=
  (sortedRows_perm input).map _

/-! ## Claim theorems (first group) -/

/-- C2: the claim says `get_cost_and_usage` keeps issuing follow-up calls
with the returned continuation token and accumulates all pages.  The code
is a slip: `params = ...NextPageToken... + kwargs` adds two dicts, a
`TypeError`, so any response whose first page carries a token crashes the
function; a single page without a token is returned intact. -/
theorem c2_pagination_second_page_type_error :
    get_cost_and_usage
        [⟨[⟨"2024-02-01", [⟨"AWS Config", 238⟩]⟩], some "page-2"⟩,
         ⟨[⟨"2024-03-01", [⟨"AWS Config", 240⟩]⟩], none⟩]
      = Except.error PyErr.typeError ∧
    get_cost_and_usage [⟨[⟨"2024-02-01", [⟨"AWS Config", 238⟩]⟩], none⟩]
      = Except.ok [⟨"2024-02-01", [⟨"AWS Config", 238⟩]⟩] :=
  ⟨rfl, rfl⟩

/-- C3: the claim says config.py defines
`LIST_OF_SERVICES_FOR_RESERVATIONS_COVERAGE` so that the import in
reservations.py succeeds.  The constant is absent from the configuration
module's attributes while the reservations subsystem imports it, so the
`from config import ...` statement raises `ImportError`. -/
theorem c3_reservations_coverage_constant_not_defined :
    fromImportSucceeds config_module_attributes reservations_from_config_imports = false ∧
    "LIST_OF_SERVICES_FOR_RESERVATIONS_COVERAGE" ∈ reservations_from_config_imports ∧
    "LIST_OF_SERVICES_FOR_RESERVATIONS_COVERAGE" ∉ config_module_attributes := by
  refine ⟨?_, ?_, ?_⟩ <;> decide

/-- C4: the claim says the purchase-recommendation fetcher skips failing
entries and never itself raises.  The code is a slip: line 233 calls
`logger.debur`, which is not a `Logger` attribute, so the function raises
`AttributeError` before it examines a single entry — for every mix of
per-entry API outcomes. -/
theorem c4_purchase_recommendations_fetcher_raises :
    ∀ (api : RprConfigEntry → ApiCall (List RIRecommendation))
      (input : List RprConfigEntry),
      get_reservations_purchase_recommendations_info api input
        = Except.error (PyErr.attributeError "debur") :=
  fun _ _ => rfl

/-- C9: both `--exclude_credit` and `--exclude_refunds` are declared
`store_true` with `default=True`, so for every argument vector both parsed
flags are `True` and the default cost filter is always the `And` of the
`Not Credit` and `Not Refund` sub-filters — the flags are inert. -/
theorem c9_exclusion_flags_inert :
    ∀ argv : List String,
      (parse_args_flags argv).exclude_credit = true ∧
      (parse_args_flags argv).exclude_refunds = true ∧
      build_default_filter (parse_args_flags argv).exclude_credit
          (parse_args_flags argv).exclude_refunds
        = CEFilter.andF
            [CEFilter.notF (CEFilter.dims ⟨"RECORD_TYPE", ["Credit"]⟩),
             CEFilter.notF (CEFilter.dims ⟨"RECORD_TYPE", ["Refund"]⟩)] := by
  intro argv
  refine ⟨?_, ?_, ?_⟩ <;> simp [parse_args_flags, store_true_value, build_default_filter]

/-- C10: on a successful savings-plans utilization response with an empty
`SavingsPlansUtilizationDetails` list, `get_savings_plans_utilization_df`
does not return absent: the empty, column-less frame reaches
`format_savings_plans_utilizations`, whose read of the missing
`EndDateTime` column raises an uncaught `KeyError` outside every `try`
block.  The reservations counterpart guards the empty group list and
returns `None`. -/
theorem c10_savings_plans_empty_details_uncaught_keyerror :
    (∀ total : SPTotal,
      get_savings_plans_utilization_df (some ⟨[], total⟩)
        = Except.error (PyErr.keyError "EndDateTime")) ∧
    (∀ rt : RUTotal,
      get_reservations_utilization_df (some ⟨[⟨[], rt⟩]⟩) = Except.ok none) :=
  ⟨fun _ => rfl, fun _ => rfl⟩

/-- C1: after the primary cost table, the per-account table and the top-5
usage-type drill-downs, the orchestrator appends — whenever the
reservations and savings-plans subsystems produced sections — those
sections as further labeled sub-tables at the end of the worksheet, and
appends nothing for a subsystem that produced none
(`write_report_workbook` is modelled from the spec: the entry point that
drives the subsystems is not among the provided source files). -/
theorem c1_workbook_appends_subsystem_sections :
    ∀ (primary perAccount : FinalDF) (topFive : List (String × FinalDF))
      (rs ss : List (String × PDF)),
      write_report_workbook primary perAccount topFive (some rs) (some ss)
        = write_report_workbook primary perAccount topFive none none
            ++ rs.map (fun p => WorksheetBlock.subsystemTable p.1 p.2)
            ++ ss.map (fun p => WorksheetBlock.subsystemTable p.1 p.2) ∧
      write_report_workbook primary perAccount topFive none none
        = [WorksheetBlock.primaryTable primary,
           WorksheetBlock.perAccountTable perAccount]
            ++ topFive.map (fun p => WorksheetBlock.usageTypeTable p.1 p.2) := by
  intro primary perAccount topFive rs ss
  constructor
  · simp [write_report_workbook]
  · simp [write_report_workbook]

end CostReport

namespace CostReport

/-- C5: in the frame returned by `ce_response_to_dataframe` there is a
`'Total Cost'` row, and every row labeled `'Total Cost'` holds, in every
month column, the sum of that column over all other (non-dropped) rows of
the final (sorted) frame — the total is computed before the descending sort
and the sort leaves it equal to the sum of the other rows. -/
theorem c5_total_cost_row_equals_column_sums (input : List CEMonth)
    (hTC : "Total Cost" ∉ collectAllKeys input) :
    (∃ r ∈ (ce_response_to_dataframe input).rows, r.label = "Total Cost") ∧
    (∀ r ∈ (ce_response_to_dataframe input).rows, r.label = "Total Cost" →
      ∀ j, j < (columnNames input).length →
        r.raw.getD j 0
          = (((ce_response_to_dataframe input).rows.filter
                (fun s => decide (s.label ≠ "Total Cost"))).map
              (fun s => s.raw.getD j 0)).sum) := by
  have hperm := finalRows_perm input
  constructor
  · refine ⟨⟨"Total Cost", columnSums (droppedRows input) (columnNames input).length,
      normalizeRow (columnNames input)
        (columnSums (droppedRows input) (columnNames input).length)⟩, ?_, rfl⟩
    apply hperm.mem_iff.mpr
    exact List.mem_map_of_mem _ (List.mem_append_right _ (List.mem_singleton.mpr rfl))
  · intro r hr hrl j hj
    obtain ⟨p, hp, hpe⟩ := List.mem_map.mp (hperm.mem_iff.mp hr)
    rcases List.mem_append.mp hp with hd | ht
    · exfalso
      have hmem : p.1 ∈ collectAllKeys input := label_mem_keys_of_dropped hd
      have hlab : p.1 = r.label := by rw [← hpe]
      rw [hlab, hrl] at hmem
      exact hTC hmem
    · have hpt : p = ("Total Cost",
          columnSums (droppedRows input) (columnNames input).length) :=
        List.mem_singleton.mp ht
      have hraw : r.raw
          = columnSums (droppedRows input) (columnNames input).length := by
        rw [← hpe, hpt]
      rw [hraw, columnSums_getD _ _ j hj]
      have h1 : ((totalRows input).filter (fun p => decide (p.1 ≠ "Total Cost")))
          = droppedRows input := by
        unfold totalRows
        rw [List.filter_append]
        have h2 : (droppedRows input).filter (fun p => decide (p.1 ≠ "Total Cost"))
            = droppedRows input := by
          rw [List.filter_eq_self]
          intro q hq
          simp only [decide_eq_true_eq]
          intro he
          exact hTC (he ▸ label_mem_keys_of_dropped hq)
        rw [h2]
        simp
      have h3 := hperm.filter (fun s => decide (s.label ≠ "Total Cost"))
      rw [List.filter_map] at h3
      have hcomp : ((fun s : FinalRow => decide (s.label ≠ "Total Cost")) ∘
          (fun p : CostRow => (⟨p.1, p.2, normalizeRow (columnNames input) p.2⟩ : FinalRow)))
          = fun p : CostRow => decide (p.1 ≠ "Total Cost") := rfl
      rw [hcomp, h1] at h3
      have h4 := (h3.map (fun s : FinalRow => s.raw.getD j 0)).sum_eq
      rw [h4, List.map_map]
      rfl

end CostReport

namespace CostReport

/-- C6: every dimension row of the final frame carries exactly one value
per month of the window, in month order — the rounded amount the month
reported for that dimension, `0` for each month whose groups do not
mention it — so a dimension appearing mid-window has zeros in the earlier
columns and its later amounts are not shifted; and every dimension key
with some non-zero rounded amount does appear as a row. -/
theorem c6_zero_fill_alignment (input : List CEMonth)
    (hnds : ∀ m ∈ input, (monthKeys m).Nodup) :
    (∀ r ∈ (ce_response_to_dataframe input).rows, r.label ≠ "Total Cost" →
      r.raw = input.map (fun m => round2 (amountIn m r.label)) ∧
      ∀ j (hj : j < input.length), r.label ∉ monthKeys (input.get ⟨j, hj⟩) →
        r.raw.getD j 0 = 0) ∧
    (∀ k ∈ collectAllKeys input,
      (∃ j, ∃ hj : j < input.length,
        round2 (amountIn (input.get ⟨j, hj⟩) k) ≠ 0) →
      ∃ r ∈ (ce_response_to_dataframe input).rows, r.label = k) := by
  have hperm := finalRows_perm input
  constructor
  · intro r hr hrl
    obtain ⟨p, hp, hpe⟩ := List.mem_map.mp (hperm.mem_iff.mp hr)
    have hd : p ∈ droppedRows input := by
      rcases List.mem_append.mp hp with h | h
      · exact h
      · exfalso
        apply hrl
        rw [← hpe, List.mem_singleton.mp h]
    have hr2 : p ∈ roundedRows input := (List.mem_filter.mp hd).1
    rw [roundedRows_eq input hnds] at hr2
    obtain ⟨k, hk, hke⟩ := List.mem_map.mp hr2
    have hlab : r.label = k := by rw [← hpe, ← hke]
    have hraw : r.raw = (rowSpec input k).map round2 := by rw [← hpe, ← hke]
    constructor
    · rw [hraw, hlab, rowSpec, List.map_map]
      rfl
    · intro j hj habs
      rw [hlab] at habs
      have h1 : ((rowSpec input k).map round2).getD j 0
          = round2 (amountIn (input.get ⟨j, hj⟩) k) := by
        have hjr : j < input.length := hj
        simp [rowSpec, List.getD_eq_getElem?_getD, List.getElem?_map,
          List.getElem?_eq_getElem hjr, List.get_eq_getElem]
      rw [hraw, h1, amountIn_eq_zero habs, round2_zero]
  · rintro k hk ⟨j, hj, hnz⟩
    refine ⟨⟨k, (rowSpec input k).map round2,
      normalizeRow (columnNames input) ((rowSpec input k).map round2)⟩, ?_, rfl⟩
    apply hperm.mem_iff.mpr
    have hmem : (k, (rowSpec input k).map round2) ∈ totalRows input := by
      apply List.mem_append_left
      apply List.mem_filter.mpr
      constructor
      · rw [roundedRows_eq input hnds]
        exact List.mem_map_of_mem _ hk
      · simp only [List.any_eq_true]
        refine ⟨round2 (amountIn (input.get ⟨j, hj⟩) k), ?_, by simpa using hnz⟩
        apply List.mem_map_of_mem
        unfold rowSpec
        exact List.mem_map_of_mem _ (List.get_mem input j hj)
    exact List.mem_map_of_mem
      (fun p : CostRow =>
        (⟨p.1, p.2, normalizeRow (columnNames input) p.2⟩ : FinalRow)) hmem

end CostReport

namespace CostReport

theorem normalizeRow_getD (cols : List String) (vals : List ℚ)
    (hlen : vals.length = cols.length) (j : Nat) (hj : j < cols.length) :
    (normalizeRow cols vals).getD j 0
      = round2 (vals.getD j 0
          / (monthrangeDays (yearOf (cols.get ⟨j, hj⟩))
              (monthOf (cols.get ⟨j, hj⟩)) : ℚ)) := by
  have hjz : j < (cols.zip vals).length := by
    rw [List.length_zip, hlen, min_self]
    exact hj
  have hjv : j < vals.length := by rw [hlen]; exact hj
  unfold normalizeRow
  rw [List.getD_eq_getElem?_getD, List.getElem?_map, List.getElem?_eq_getElem hjz]
  rw [List.getD_eq_getElem?_getD, List.getElem?_eq_getElem hjv]
  simp [List.getElem_zip, List.get_eq_getElem]

/-- C8: every normalized cell of the final frame is the raw cell divided by
the number of calendar days of that column's month (leap years included),
rounded to two decimals; the normalized columns carry the `'n '` prefix in
the column list; and on the spec's examples a `2024-02-01` (29-day leap
month) value of `290.0` normalizes to exactly `10.0`, a `2024-04-01`
(30-day month) value of `300.0` to exactly `10.0`. -/
theorem c8_normalized_columns (input : List CEMonth)
    (hnds : ∀ m ∈ input, (monthKeys m).Nodup) :
    (∀ r ∈ (ce_response_to_dataframe input).rows,
      ∀ j (hj : j < (columnNames input).length),
        r.norm.getD j 0
          = round2 (r.raw.getD j 0
              / (monthrangeDays (yearOf ((columnNames input).get ⟨j, hj⟩))
                  (monthOf ((columnNames input).get ⟨j, hj⟩)) : ℚ))) ∧
    (ce_response_to_dataframe input).columns
      = List.insertIdx 3 "---"
          (columnNames input ++ (columnNames input).map (fun c => "n " ++ c)) ∧
    monthrangeDays (yearOf "2024-02-01") (monthOf "2024-02-01") = 29 ∧
    monthrangeDays (yearOf "2024-04-01") (monthOf "2024-04-01") = 30 ∧
    round2 ((290 : ℚ) / 29) = 10 ∧
    round2 ((300 : ℚ) / 30) = 10 := by
  refine ⟨?_, rfl, by decide, by decide, ?_, ?_⟩
  · intro r hr j hj
    have hr' : r ∈ (sortedRows input).map
        (fun p : CostRow =>
          (⟨p.1, p.2, normalizeRow (columnNames input) p.2⟩ : FinalRow)) := hr
    obtain ⟨p, hp, hpe⟩ := List.mem_map.mp hr'
    have hpt : p ∈ totalRows input := (sortedRows_perm input).mem_iff.mp hp
    have hlen : p.2.length = (columnNames input).length :=
      length_of_mem_totalRows hnds hpt
    have hraw : r.raw = p.2 := by rw [← hpe]
    have hnv : r.norm = normalizeRow (columnNames input) p.2 := by rw [← hpe]
    rw [hraw, hnv, normalizeRow_getD (columnNames input) p.2 hlen j hj]
  · unfold round2
    rw [show ((290 : ℚ) / 29 * 100) = 1000 by norm_num, round_eq]
    norm_num
  · unfold round2
    rw [show ((300 : ℚ) / 30 * 100) = 1000 by norm_num, round_eq]
    norm_num

end CostReport

namespace CostReport

/-! ## Helper lemmas: labels, column lookup and the diff sort -/

theorem findIdx?_nodup_get {l : List String} (hnd : l.Nodup) (i : Nat) (hi : i < l.length) :
    l.findIdx? (fun s => decide (s = l.get ⟨i, hi⟩)) = some i := by
  induction l generalizing i with
  | nil => simp at hi
  | cons a tl ih =>
    cases i with
    | zero =>
      rw [List.findIdx?_cons]
      simp [List.get]
    | succ j =>
      have hj : j < tl.length := Nat.lt_of_succ_lt_succ hi
      have hget : (a :: tl).get ⟨j + 1, hi⟩ = tl.get ⟨j, hj⟩ := rfl
      rw [List.findIdx?_cons, hget]
      have hne : a ≠ tl.get ⟨j, hj⟩ := by
        intro he
        exact (List.nodup_cons.mp hnd).1 (he ▸ List.get_mem tl j hj)
      rw [if_neg (by simpa [List.get_eq_getElem] using hne), List.findIdx?_succ,
        ih (List.nodup_cons.mp hnd).2 j hj]
      rfl

theorem findIdx?_nodup_of_get {l : List String} (hnd : l.Nodup) {i : Nat} {a : String}
    (hi : i < l.length) (ha : l.get ⟨i, hi⟩ = a) :
    l.findIdx? (fun s => decide (s = a)) = some i := by
  subst ha
  exact findIdx?_nodup_get hnd i hi

theorem cells_getD_len3 (r : FinalRow) (h1 : r.raw.length = 3) (h2 : r.norm.length = 3) :
    r.cells.getD 6 none = some (r.norm.getD 2 0)
      ∧ r.cells.getD 5 none = some (r.norm.getD 1 0) := by
  obtain ⟨x1, x2, x3, hx⟩ := List.length_eq_three.mp h1
  obtain ⟨y1, y2, y3, hy⟩ := List.length_eq_three.mp h2
  unfold FinalRow.cells
  rw [hx, hy]
  exact ⟨rfl, rfl⟩

theorem subtractCells_map_some (l : List FinalRow) (f g : FinalRow → ℚ) :
    subtractCells (l.map (fun r => some (f r))) (l.map (fun r => some (g r)))
      = Except.ok (l.map (fun r => f r - g r)) := by
  induction l with
  | nil => rfl
  | cons a tl ih =>
    show (subtractCells (tl.map fun r => some (f r)) (tl.map fun r => some (g r))).map
        (fun t => (f a - g a) :: t) = _
    rw [ih]
    rfl

theorem normalizeRow_length (cols : List String) (vals : List ℚ) :
    (normalizeRow cols vals).length = min cols.length vals.length := by
  simp [normalizeRow]

theorem finalRows_labels_eq (input : List CEMonth) :
    (ce_response_to_dataframe input).rows.map (fun r => r.label)
      = (sortedRows input).map Prod.fst := by
  show ((sortedRows input).map
      (fun p : CostRow =>
        (⟨p.1, p.2, normalizeRow (columnNames input) p.2⟩ : FinalRow))).map
      (fun r => r.label) = _
  rw [List.map_map]
  rfl

theorem finalRows_labels_perm (input : List CEMonth) :
    ((ce_response_to_dataframe input).rows.map (fun r => r.label)).Perm
      ((totalRows input).map Prod.fst) := by
  rw [finalRows_labels_eq]
  exact (sortedRows_perm input).map _

theorem droppedRows_labels_nodup (input : List CEMonth)
    (hnds : ∀ m ∈ input, (monthKeys m).Nodup) :
    ((droppedRows input).map Prod.fst).Nodup := by
  have h1 : (droppedRows input).Sublist (roundedRows input) := List.filter_sublist _
  apply List.Nodup.sublist (h1.map Prod.fst)
  have hcomp : (Prod.fst ∘ fun k : String => (k, (rowSpec input k).map round2))
      = fun k : String => k := rfl
  rw [roundedRows_eq input hnds, List.map_map, hcomp, List.map_id']
  exact collectAllKeys_nodup input

theorem totalRows_labels_nodup (input : List CEMonth)
    (hnds : ∀ m ∈ input, (monthKeys m).Nodup)
    (hTC : "Total Cost" ∉ collectAllKeys input) :
    ((totalRows input).map Prod.fst).Nodup := by
  unfold totalRows
  rw [List.map_append, List.nodup_append]
  refine ⟨droppedRows_labels_nodup input hnds, by simp, ?_⟩
  intro a ha hb
  simp only [List.map_cons, List.map_nil, List.mem_singleton] at hb
  obtain ⟨p, hp, hpe⟩ := List.mem_map.mp ha
  apply hTC
  rw [← hb, ← hpe]
  exact label_mem_keys_of_dropped hp

theorem finalRows_labels_nodup (input : List CEMonth)
    (hnds : ∀ m ∈ input, (monthKeys m).Nodup)
    (hTC : "Total Cost" ∉ collectAllKeys input) :
    ((ce_response_to_dataframe input).rows.map (fun r => r.label)).Nodup :=
  (finalRows_labels_perm input).nodup_iff.mpr (totalRows_labels_nodup input hnds hTC)

theorem totalCost_mem_labels (input : List CEMonth) :
    "Total Cost" ∈ (ce_response_to_dataframe input).rows.map (fun r => r.label) := by
  apply (finalRows_labels_perm input).mem_iff.mpr
  unfold totalRows
  rw [List.map_append]
  exact List.mem_append_right _ (by simp)

theorem mem_labels_cases (input : List CEMonth) {k : String}
    (hk : k ∈ (ce_response_to_dataframe input).rows.map (fun r => r.label)) :
    k = "Total Cost" ∨ k ∈ collectAllKeys input := by
  have h := (finalRows_labels_perm input).mem_iff.mp hk
  unfold totalRows at h
  rw [List.map_append] at h
  rcases List.mem_append.mp h with h1 | h2
  · obtain ⟨p, hp, hpe⟩ := List.mem_map.mp h1
    exact Or.inr (hpe ▸ label_mem_keys_of_dropped hp)
  · simp only [List.map_cons, List.map_nil, List.mem_singleton] at h2
    exact Or.inl h2

end CostReport

namespace CostReport

/-- C7: on the program's 3-month frame, the top-changing-dimension
selection computes the difference of the last two (normalized) columns,
sorts the labels descending by that difference, never returns
`'Total Cost'`, and returns at most the first five dimension keys. -/
theorem c7_top_five_selection (input : List CEMonth)
    (hlen : input.length = 3)
    (hnds : ∀ m ∈ input, (monthKeys m).Nodup)
    (hTC : "Total Cost" ∉ collectAllKeys input)
    (hcols : (ce_response_to_dataframe input).columns.Nodup) :
    ∃ L, top_five_services_by_max_diff (ce_response_to_dataframe input)
        = Except.ok L ∧
      L.length ≤ 5 ∧
      "Total Cost" ∉ L ∧
      (∀ k ∈ L, k ∈ collectAllKeys input) ∧
      L.Pairwise (fun a b =>
        normDiffByLabel (ce_response_to_dataframe input) b
          ≤ normDiffByLabel (ce_response_to_dataframe input) a) := by
  obtain ⟨c1, c2, c3, hc⟩ :=
    List.length_eq_three.mp (by rw [columnNames_length]; exact hlen)
  have hm : (ce_response_to_dataframe input).months = [c1, c2, c3] := hc
  have hcolseq : (ce_response_to_dataframe input).columns
      = [c1, c2, c3, "---", "n " ++ c1, "n " ++ c2, "n " ++ c3] := by
    show List.insertIdx 3 "---"
        ((ce_response_to_dataframe input).months
          ++ (ce_response_to_dataframe input).months.map (fun c => "n " ++ c)) = _
    rw [hm]
    rfl
  have hlen7 : (ce_response_to_dataframe input).columns.length = 7 := by
    rw [hcolseq]
    rfl
  have hlast : (ce_response_to_dataframe input).columns.getD
      ((ce_response_to_dataframe input).columns.length - 1) "" = "n " ++ c3 := by
    rw [hcolseq]
    rfl
  have hprev : (ce_response_to_dataframe input).columns.getD
      ((ce_response_to_dataframe input).columns.length - 2) "" = "n " ++ c2 := by
    rw [hcolseq]
    rfl
  have hi6 : (6 : Nat) < (ce_response_to_dataframe input).columns.length := by
    rw [hlen7]
    norm_num
  have hi5 : (5 : Nat) < (ce_response_to_dataframe input).columns.length := by
    rw [hlen7]
    norm_num
  have hg6 : (ce_response_to_dataframe input).columns.get ⟨6, hi6⟩ = "n " ++ c3 := by
    have h1 : (ce_response_to_dataframe input).columns.getD 6 "" = "n " ++ c3 := by
      rw [hcolseq]
      rfl
    rw [List.get_eq_getElem, ← h1, List.getD_eq_getElem?_getD,
      List.getElem?_eq_getElem hi6]
    rfl
  have hg5 : (ce_response_to_dataframe input).columns.get ⟨5, hi5⟩ = "n " ++ c2 := by
    have h1 : (ce_response_to_dataframe input).columns.getD 5 "" = "n " ++ c2 := by
      rw [hcolseq]
      rfl
    rw [List.get_eq_getElem, ← h1, List.getD_eq_getElem?_getD,
      List.getElem?_eq_getElem hi5]
    rfl
  have hfind6 := findIdx?_nodup_of_get hcols hi6 hg6
  have hfind5 := findIdx?_nodup_of_get hcols hi5 hg5
  have hshape : ∀ r ∈ (ce_response_to_dataframe input).rows,
      r.raw.length = 3 ∧ r.norm.length = 3 := by
    intro r hr
    have hr' : r ∈ (sortedRows input).map
        (fun p : CostRow =>
          (⟨p.1, p.2, normalizeRow (columnNames input) p.2⟩ : FinalRow)) := hr
    obtain ⟨p, hp, hpe⟩ := List.mem_map.mp hr'
    have hpt : p ∈ totalRows input := (sortedRows_perm input).mem_iff.mp hp
    have hplen : p.2.length = 3 := by
      rw [length_of_mem_totalRows hnds hpt, hc]
      rfl
    have hraw : r.raw = p.2 := by rw [← hpe]
    have hnv : r.norm = normalizeRow (columnNames input) p.2 := by rw [← hpe]
    refine ⟨by rw [hraw, hplen], ?_⟩
    rw [hnv, normalizeRow_length, hc, hplen]
    simp
  have hgetLast : (ce_response_to_dataframe input).getColumn ("n " ++ c3)
      = some ((ce_response_to_dataframe input).rows.map
          (fun r => some (r.norm.getD 2 0))) := by
    show ((ce_response_to_dataframe input).columns.findIdx?
        (fun s => decide (s = "n " ++ c3))).map
        (fun j => (ce_response_to_dataframe input).rows.map
          (fun r => r.cells.getD j none)) = _
    rw [hfind6]
    simp only [Option.map_some']
    congr 1
    apply List.map_congr_left
    intro r hr
    exact (cells_getD_len3 r (hshape r hr).1 (hshape r hr).2).1
  have hgetPrev : (ce_response_to_dataframe input).getColumn ("n " ++ c2)
      = some ((ce_response_to_dataframe input).rows.map
          (fun r => some (r.norm.getD 1 0))) := by
    show ((ce_response_to_dataframe input).columns.findIdx?
        (fun s => decide (s = "n " ++ c2))).map
        (fun j => (ce_response_to_dataframe input).rows.map
          (fun r => r.cells.getD j none)) = _
    rw [hfind5]
    simp only [Option.map_some']
    congr 1
    apply List.map_congr_left
    intro r hr
    exact (cells_getD_len3 r (hshape r hr).1 (hshape r hr).2).2
  have hsub := subtractCells_map_some (ce_response_to_dataframe input).rows
    (fun r => r.norm.getD 2 0) (fun r => r.norm.getD 1 0)
  have hpairs : List.zip
        ((ce_response_to_dataframe input).rows.map (fun r => r.label))
        ((ce_response_to_dataframe input).rows.map
          (fun r => r.norm.getD 2 0 - r.norm.getD 1 0))
      = (ce_response_to_dataframe input).rows.map
          (fun r => (r.label, r.norm.getD 2 0 - r.norm.getD 1 0)) :=
    List.zip_map' _ _ _
  have hlabnd := finalRows_labels_nodup input hnds hTC
  have hfstpairs : ((ce_response_to_dataframe input).rows.map
        (fun r => (r.label, r.norm.getD 2 0 - r.norm.getD 1 0))).map Prod.fst
      = (ce_response_to_dataframe input).rows.map (fun r => r.label) := by
    rw [List.map_map]
    rfl
  have hspperm : (List.insertionSort diffGE
        ((ce_response_to_dataframe input).rows.map
          (fun r => (r.label, r.norm.getD 2 0 - r.norm.getD 1 0)))).Perm
      ((ce_response_to_dataframe input).rows.map
        (fun r => (r.label, r.norm.getD 2 0 - r.norm.getD 1 0))) :=
    List.perm_insertionSort _ _
  have hmfst : ((List.insertionSort diffGE
        ((ce_response_to_dataframe input).rows.map
          (fun r => (r.label, r.norm.getD 2 0 - r.norm.getD 1 0)))).map Prod.fst).Perm
      ((ce_response_to_dataframe input).rows.map (fun r => r.label)) := by
    rw [← hfstpairs]
    exact hspperm.map _
  have hspnd := hmfst.nodup_iff.mpr hlabnd
  have hTCsp : "Total Cost" ∈ (List.insertionSort diffGE
        ((ce_response_to_dataframe input).rows.map
          (fun r => (r.label, r.norm.getD 2 0 - r.norm.getD 1 0)))).map Prod.fst :=
    hmfst.mem_iff.mpr (totalCost_mem_labels input)
  have hrem : pyRemove ((List.insertionSort diffGE
        ((ce_response_to_dataframe input).rows.map
          (fun r => (r.label, r.norm.getD 2 0 - r.norm.getD 1 0)))).map Prod.fst)
        "Total Cost"
      = Except.ok (((List.insertionSort diffGE
          ((ce_response_to_dataframe input).rows.map
            (fun r => (r.label, r.norm.getD 2 0 - r.norm.getD 1 0)))).map
          Prod.fst).erase "Total Cost") := by
    rw [pyRemove, if_pos hTCsp]
  refine ⟨(((List.insertionSort diffGE
      ((ce_response_to_dataframe input).rows.map
        (fun r => (r.label, r.norm.getD 2 0 - r.norm.getD 1 0)))).map
      Prod.fst).erase "Total Cost").take 5, ?_, ?_, ?_, ?_, ?_⟩
  · unfold top_five_services_by_max_diff
    rw [hlast, hprev, hgetLast, hgetPrev]
    dsimp only
    rw [hsub]
    dsimp only
    rw [hpairs, hrem]
  · rw [List.length_take]
    exact min_le_left _ _
  · intro hmem
    have h1 := (List.take_sublist _ _).subset hmem
    exact ((hspnd.mem_erase_iff).mp h1).1 rfl
  · intro k hk
    have h1 := (List.take_sublist _ _).subset hk
    have h2 := (hspnd.mem_erase_iff).mp h1
    have h3 : k ∈ (ce_response_to_dataframe input).rows.map (fun r => r.label) :=
      hmfst.mem_iff.mp h2.2
    rcases mem_labels_cases input h3 with h | h
    · exact absurd h h2.1
    · exact h
  · have hsorted : List.Pairwise diffGE (List.insertionSort diffGE
        ((ce_response_to_dataframe input).rows.map
          (fun r => (r.label, r.norm.getD 2 0 - r.norm.getD 1 0)))) :=
      List.sorted_insertionSort diffGE _
    have hdiffval : ∀ p ∈ List.insertionSort diffGE
        ((ce_response_to_dataframe input).rows.map
          (fun r => (r.label, r.norm.getD 2 0 - r.norm.getD 1 0))),
        normDiffByLabel (ce_response_to_dataframe input) p.1 = p.2 := by
      intro p hp
      have hp2 := hspperm.mem_iff.mp hp
      obtain ⟨r, hr, hre⟩ := List.mem_map.mp hp2
      have hfound : (ce_response_to_dataframe input).rows.find?
          (fun s => decide (s.label = p.1)) = some r := by
        have : p.1 = r.label := by rw [← hre]
        rw [this]
        exact find?_map_self _ (fun r => r.label) r hlabnd hr
      unfold normDiffByLabel
      rw [hfound, hm, ← hre]
      simp
    have himp : List.Pairwise
        (fun p q : String × ℚ =>
          normDiffByLabel (ce_response_to_dataframe input) q.1
            ≤ normDiffByLabel (ce_response_to_dataframe input) p.1)
        (List.insertionSort diffGE
          ((ce_response_to_dataframe input).rows.map
            (fun r => (r.label, r.norm.getD 2 0 - r.norm.getD 1 0)))) := by
      apply hsorted.imp_of_mem
      intro a b ha hb h
      rw [hdiffval a ha, hdiffval b hb]
      exact h
    have hmapPW : ((List.insertionSort diffGE
        ((ce_response_to_dataframe input).rows.map
          (fun r => (r.label, r.norm.getD 2 0 - r.norm.getD 1 0)))).map
        Prod.fst).Pairwise
        (fun a b =>
          normDiffByLabel (ce_response_to_dataframe input) b
            ≤ normDiffByLabel (ce_response_to_dataframe input) a) := by
      rw [List.pairwise_map]
      exact himp
    exact List.Pairwise.sublist
      ((List.take_sublist _ _).trans (List.erase_sublist _ _)) hmapPW

end CostReport

namespace CostReport

/-- Witness for C5 at the concrete 3-month example. -/
theorem c5_total_cost_row_equals_column_sums_witness :
    "Total Cost" ∉ collectAllKeys exampleInput ∧
    ((∃ r ∈ (ce_response_to_dataframe exampleInput).rows, r.label = "Total Cost") ∧
    (∀ r ∈ (ce_response_to_dataframe exampleInput).rows, r.label = "Total Cost" →
      ∀ j, j < (columnNames exampleInput).length →
        r.raw.getD j 0
          = (((ce_response_to_dataframe exampleInput).rows.filter
                (fun s => decide (s.label ≠ "Total Cost"))).map
              (fun s => s.raw.getD j 0)).sum)) :=
  ⟨by decide, c5_total_cost_row_equals_column_sums exampleInput (by decide)⟩

/-- Witness for C6 at the concrete 3-month example. -/
theorem c6_zero_fill_alignment_witness :
    (∀ m ∈ exampleInput, (monthKeys m).Nodup) ∧
    ((∀ r ∈ (ce_response_to_dataframe exampleInput).rows, r.label ≠ "Total Cost" →
      r.raw = exampleInput.map (fun m => round2 (amountIn m r.label)) ∧
      ∀ j (hj : j < exampleInput.length),
        r.label ∉ monthKeys (exampleInput.get ⟨j, hj⟩) →
        r.raw.getD j 0 = 0) ∧
    (∀ k ∈ collectAllKeys exampleInput,
      (∃ j, ∃ hj : j < exampleInput.length,
        round2 (amountIn (exampleInput.get ⟨j, hj⟩) k) ≠ 0) →
      ∃ r ∈ (ce_response_to_dataframe exampleInput).rows, r.label = k)) :=
  ⟨by decide, c6_zero_fill_alignment exampleInput (by decide)⟩

/-- Witness for C8 at the concrete 3-month example. -/
theorem c8_normalized_columns_witness :
    (∀ m ∈ exampleInput, (monthKeys m).Nodup) ∧
    ((∀ r ∈ (ce_response_to_dataframe exampleInput).rows,
      ∀ j (hj : j < (columnNames exampleInput).length),
        r.norm.getD j 0
          = round2 (r.raw.getD j 0
              / (monthrangeDays (yearOf ((columnNames exampleInput).get ⟨j, hj⟩))
                  (monthOf ((columnNames exampleInput).get ⟨j, hj⟩)) : ℚ))) ∧
    (ce_response_to_dataframe exampleInput).columns
      = List.insertIdx 3 "---"
          (columnNames exampleInput
            ++ (columnNames exampleInput).map (fun c => "n " ++ c)) ∧
    monthrangeDays (yearOf "2024-02-01") (monthOf "2024-02-01") = 29 ∧
    monthrangeDays (yearOf "2024-04-01") (monthOf "2024-04-01") = 30 ∧
    round2 ((290 : ℚ) / 29) = 10 ∧
    round2 ((300 : ℚ) / 30) = 10) :=
  ⟨by decide, c8_normalized_columns exampleInput (by decide)⟩

/-- Witness for C7 at the concrete 3-month example. -/
theorem c7_top_five_selection_witness :
    exampleInput.length = 3 ∧
    (∀ m ∈ exampleInput, (monthKeys m).Nodup) ∧
    "Total Cost" ∉ collectAllKeys exampleInput ∧
    (ce_response_to_dataframe exampleInput).columns.Nodup ∧
    (∃ L, top_five_services_by_max_diff (ce_response_to_dataframe exampleInput)
        = Except.ok L ∧
      L.length ≤ 5 ∧
      "Total Cost" ∉ L ∧
      (∀ k ∈ L, k ∈ collectAllKeys exampleInput) ∧
      L.Pairwise (fun a b =>
        normDiffByLabel (ce_response_to_dataframe exampleInput) b
          ≤ normDiffByLabel (ce_response_to_dataframe exampleInput) a)) :=
  ⟨rfl, by decide, by decide, by decide,
    c7_top_five_selection exampleInput rfl (by decide) (by decide) (by decide)⟩

end CostReport
